import Mathlib

/-!
# ClouDNS provider for libdns: a shallow embedding

The Go package `cloudns` (files `model.go`, `client.go`, `provider.go`) is embedded
as pure Lean functions.  Network traffic is made explicit: every operation takes a
`Transport` (the answers of the remote side) and the log of requests issued so far,
and returns its Go result together with the extended log.

Go results `(value, error)` are values of `Outcome`; a run-time panic (a nil pointer
dereference) is a third kind of outcome.  Errors are represented by their message,
which is also how the source tells them apart (`err.Error() == "record not found"`).
-/

namespace Cloudns

/-! ## Data model -/

/-- Go `time.Duration`: a count of nanoseconds. -/
abbrev Duration := Int

/-- Go `time.Second`. -/
def second : Duration := 1000000000

/-- The fields of `libdns.Record` used by the package (`Typ` is the Go field `Type`). -/
structure Record where
  ID : String
  Typ : String
  Name : String
  Value : String
  TTL : Duration
deriving DecidableEq

/-- Wire record, `model.go` (`Typ` is the Go field `Type`). -/
structure ApiDnsRecord where
  Id : String
  Typ : String
  Host : String
  Record : String
  Failover : String
  Ttl : String
  Status : Int
deriving DecidableEq

/-- The anonymous `Data` struct of `ApiResponse`. -/
structure ApiResponseData where
  Id : Int
deriving DecidableEq

/-- Response envelope, `model.go`. -/
structure ApiResponse where
  Status : String
  StatusDescription : String
  Data : ApiResponseData
deriving DecidableEq

/-! ## Results of Go calls -/

/-- Result of a Go function returning `(value, error)`:
`ok a` is `(a, nil)`, `error msg` is `(nil, err)` with `err.Error() = msg`,
`panic msg` is a run-time panic that unwinds the call. -/
inductive Outcome (α : Type) where
  | ok (a : α)
  | error (msg : String)
  | panic (msg : String)
deriving DecidableEq

/-- Message of the run-time panic raised by a field access through a nil pointer. -/
def nilDeref : String := "runtime error: invalid memory address or nil pointer dereference"

/-- Message of the run-time panic raised by indexing an empty slice at 0. -/
def indexOutOfRange : String := "runtime error: index out of range [0] with length 0"

/-! ## HTTP and JSON, the external collaborators -/

/-- Result of `json.Unmarshal` of a body into a fixed target:
`invalid` when it returns an error, `null` when the body is JSON `null`
(the target, a nil pointer or nil map, is left untouched), `value a` otherwise. -/
inductive Decoded (α : Type) where
  | invalid
  | null
  | value (a : α)
deriving DecidableEq

/-- Body of an HTTP response as the package observes it: the result of `io.ReadAll`
(an error, or the raw text) and what `json.Unmarshal` makes of the raw text for each
of the two targets used, `*ApiResponse` and `map[string]ApiDnsRecord`.  The entries of
the map are listed in the order in which the `range` loop visits them. -/
structure Body where
  readErr : Option String
  raw : String
  envelope : Decoded ApiResponse
  listing : Decoded (List ApiDnsRecord)
deriving DecidableEq

/-- The fields of `http.Response` used by the package. -/
structure Response where
  StatusCode : Int
  Body : Body
deriving DecidableEq

/-- What the send helpers return, `(*http.Response, error)`:
`failed err` is `(nil, err)`; `failedWithResp resp err` is a non-nil response together
with an error (only after a failed redirect check); `answered resp` is `(resp, nil)`.
`http.Client.Do` never returns `(nil, nil)`. -/
inductive SendResult where
  | failed (err : String)
  | failedWithResp (resp : Response) (err : String)
  | answered (resp : Response)
deriving DecidableEq

/-- Go `url.Values` restricted to what `Set` can build: one value per key. -/
abbrev Values := List (String × String)

/-- Go `Values.Get`, with `none` for an absent key. -/
def Values.Get : Values → String → Option String
  | [], _ => none
  | (k, v) :: rest, key => if k = key then some v else Values.Get rest key

/-- Go `Values.Set`: replaces the value of the key, or adds the key. -/
def Values.Set : Values → String → String → Values
  | [], key, value => [(key, value)]
  | (k, v) :: rest, key, value =>
    if k = key then (key, value) :: rest else (k, v) :: Values.Set rest key value

/-- The part of `url.URL` the package uses: the address without the query, and the
query (`RawQuery`, kept decoded: `Query()` after `Encode()` gives the values back). -/
structure URL where
  Path : String
  RawQuery : Values
deriving DecidableEq

/-- Go `(*URL).JoinPath` on a base path that ends in a slash: a new URL value. -/
def URL.JoinPath (u : URL) (elem : String) : URL :=
  { u with Path := u.Path ++ elem }

/-- An HTTP request as it leaves the package: method, address and query parameters. -/
structure Request where
  Method : String
  URL : String
  Query : Values
deriving DecidableEq

/-- The remote side: the answer to the latest request, given all requests issued so
far (oldest first, the latest one last). -/
abbrev Transport := List Request → SendResult

/-- The package variable `baseUrl`, parsed (`url.Parse` succeeds on this constant). -/
def baseUrl : URL := { Path := "https://api.cloudns.net/dns/", RawQuery := [] }

/-! ## Helpers that the package calls but does not define in these files -/

/-- Modelled from the spec: the accepted TTL values of the vendor (spec 4.1), the
table behind `ttlRounder`, whose body is not among the source files. -/
def ttlBuckets : List Int :=
  [60, 300, 900, 1800, 3600, 21600, 43200, 86400, 172800, 259200, 604800, 1209600, 2592000]

/-- Modelled from the spec: `ttlRounder`, called in `client.go` and `provider.go` but
defined elsewhere.  Spec 4.1: round up to the smallest accepted value that is at least
the requested duration; clamp to the maximum 2592000 when the request exceeds it.
The result is a number of seconds (a Go `int`). -/
def ttlRounder (ttl : Duration) : Int :=
  match ttlBuckets.find? (fun v => decide (ttl ≤ v * second)) with
  | some v => v
  | none => 2592000

/-- Value of a string of decimal digits; `none` for the empty string or a non-digit. -/
def parseDigits : List Char → Option Nat
  | [] => none
  | c :: cs =>
    (c :: cs).foldl
      (fun acc d => acc.bind fun n => if d.isDigit then some (n * 10 + (d.toNat - 48)) else none)
      (some 0)

/-- Modelled from the spec: `parseDuration`, called in `client.go` and `provider.go`
but defined elsewhere.  Spec 4.1: the argument is an integer-seconds string followed by
the unit `s`; the result is that many seconds, and zero when the string does not parse
(also when the amount does not fit the 64-bit nanosecond count). -/
def parseDuration (s : String) : Duration :=
  match s.data.reverse with
  | 's' :: rev =>
    match rev.reverse with
    | '-' :: ds =>
      match parseDigits ds with
      | some n => if (n : Int) * second ≤ 9223372036854775808 then -((n : Int) * second) else 0
      | none => 0
    | '+' :: ds =>
      match parseDigits ds with
      | some n => if (n : Int) * second ≤ 9223372036854775807 then (n : Int) * second else 0
      | none => 0
    | ds =>
      match parseDigits ds with
      | some n => if (n : Int) * second ≤ 9223372036854775807 then (n : Int) * second else 0
      | none => 0
  | _ => 0

/-- Go `strconv.Itoa`. -/
def Itoa (n : Int) : String := toString n

/-- Go `fmt.Errorf("unexpected status code: %d", code)`, as its message. -/
def unexpectedStatus (code : Int) : String := "unexpected status code: " ++ Itoa code

/-! ## Building and sending requests -/

/-- The first half of the four send helpers (`//fill in auth params`): the
sub-account id when one is configured, otherwise the account id, then the password. -/
def fillAuth (authId subAuthId authPassword : String) (queries : Values) : Values :=
  let queries :=
    if subAuthId ≠ "" then Values.Set queries "sub-auth-id" subAuthId
    else Values.Set queries "auth-id" authId
  Values.Set queries "auth-password" authPassword

/-- The second half of the four send helpers (`//fill in payload`): `queries.Set(k, v)`
for every entry of the payload map. -/
def fillPayload (queries : Values) (payload : List (String × String)) : Values :=
  payload.foldl (fun q kv => Values.Set q kv.1 kv.2) queries

/-- Common body of `sendPostRequest` and `sendGetRequest` of `Provider` and `Client`,
which differ only in the HTTP method and in where the credentials are stored.
The query of `reqUrl` is read, completed and written back into `reqUrl` (the caller
sees the mutation, so the updated URL is returned too); the request is appended to the
log and answered by the transport. -/
def send (method authId subAuthId authPassword : String) (t : Transport) (log : List Request)
    (reqUrl : URL) (payload : List (String × String)) : SendResult × URL × List Request :=
  let queries := fillPayload (fillAuth authId subAuthId authPassword reqUrl.RawQuery) payload
  let reqUrl := { reqUrl with RawQuery := queries }
  let log := log ++ [{ Method := method, URL := reqUrl.Path, Query := queries }]
  (t log, reqUrl, log)

/-- Credentials of the provider, `provider.go`. -/
structure Provider where
  AuthId : String
  SubAuthId : String
  AuthPassword : String
deriving DecidableEq

/-- Client of `client.go`; `UseClient` sets `baseUrl` to the parsed API address. -/
structure Client where
  authId : String
  subAuthId : String
  authPassword : String
  baseUrl : URL
deriving DecidableEq

/-- Go `UseClient`. -/
def UseClient (authId subAuthId authPassword : String) : Client :=
  { authId := authId, subAuthId := subAuthId, authPassword := authPassword, baseUrl := baseUrl }

/-- Go `(*Provider).sendPostRequest`. -/
def Provider.sendPostRequest (p : Provider) (t : Transport) (log : List Request)
    (reqUrl : URL) (payload : List (String × String)) : SendResult × URL × List Request :=
  send "POST" p.AuthId p.SubAuthId p.AuthPassword t log reqUrl payload

/-- Go `(*Provider).sendGetRequest`. -/
def Provider.sendGetRequest (p : Provider) (t : Transport) (log : List Request)
    (reqUrl : URL) (payload : List (String × String)) : SendResult × URL × List Request :=
  send "GET" p.AuthId p.SubAuthId p.AuthPassword t log reqUrl payload

/-- Go `(*Client).sendPostRequest`. -/
def Client.sendPostRequest (c : Client) (t : Transport) (log : List Request)
    (reqUrl : URL) (payload : List (String × String)) : SendResult × URL × List Request :=
  send "POST" c.authId c.subAuthId c.authPassword t log reqUrl payload

/-- Go `(*Client).sendGetRequest`. -/
def Client.sendGetRequest (c : Client) (t : Transport) (log : List Request)
    (reqUrl : URL) (payload : List (String × String)) : SendResult × URL × List Request :=
  send "GET" c.authId c.subAuthId c.authPassword t log reqUrl payload

/-! ## Reading responses -/

/-- The loop body of `GetRecords`: a wire record as a `libdns.Record`. -/
def toRecord (v : ApiDnsRecord) : Record :=
  { ID := v.Id, Typ := v.Typ, Name := v.Host, TTL := parseDuration (v.Ttl ++ "s"), Value := v.Record }

/-- From the status check on: the part shared by every mutating call of both files
(`provider.go` 84-99, 140-155, 186-201; `client.go` 110-124, 155-169, 206-220):
status code, `io.ReadAll`, `json.Unmarshal` into `*ApiResponse`, `Status` test.
A JSON `null` leaves the pointer nil and `resultModel.Status` panics. -/
def readEnvelope (resp : Response) : Outcome ApiResponse :=
  if resp.StatusCode ≠ 200 then .error (unexpectedStatus resp.StatusCode)
  else
    match resp.Body.readErr with
    | some err => .error err
    | none =>
      match resp.Body.envelope with
      | .invalid => .error resp.Body.raw
      | .null => .panic nilDeref
      | .value resultModel =>
        if resultModel.Status ≠ "Success" then .error resultModel.StatusDescription
        else .ok resultModel

/-- From the status check on: the listing part shared by both `GetRecords`
(`provider.go` 39-62, `client.go` 46-68).  A JSON `null` leaves the map nil and the
loop runs zero times. -/
def readListing (resp : Response) : Outcome (List Record) :=
  if resp.StatusCode ≠ 200 then .error (unexpectedStatus resp.StatusCode)
  else
    match resp.Body.readErr with
    | some err => .error err
    | none =>
      match resp.Body.listing with
      | .invalid => .error resp.Body.raw
      | .null => .ok []
      | .value apiResult => .ok (apiResult.map toRecord)

/-- How `provider.go` receives the result of a send helper: `if err != nil` comes
first, the response is touched only afterwards. -/
def Provider.receive {α : Type} (read : Response → Outcome α) : SendResult → Outcome α
  | .failed err => .error err
  | .failedWithResp _ err => .error err
  | .answered resp => read resp

/-- How `client.go` receives the result of a send helper: `defer resp.Body.Close()`
comes first, and evaluating `resp.Body` for the deferred call dereferences `resp`.
With a nil response this panics before `if err != nil` is reached. -/
def Client.receive {α : Type} (read : Response → Outcome α) : SendResult → Outcome α
  | .failed _ => .panic nilDeref
  | .failedWithResp _ err => .error err
  | .answered resp => read resp

/-! ## provider.go -/

/-- Go `(*Provider).GetRecords`. -/
def Provider.GetRecords (p : Provider) (t : Transport) (log : List Request) (zone : String) :
    Outcome (List Record) × List Request :=
  let endpoint := baseUrl.JoinPath "records.json"
  let (resp, _, log) := p.sendGetRequest t log endpoint [("domain-name", zone)]
  (Provider.receive readListing resp, log)

/-- The `for` loop of `(*Provider).AppendRecords`: the records still to add, the
endpoint (one URL value, reused and mutated by every send), `resultRec`, the log. -/
def Provider.AppendRecords.loop (p : Provider) (t : Transport) (zone : String) :
    List Record → URL → List Record → List Request → Outcome (List Record) × List Request
  | [], _, resultRec, log => (.ok resultRec, log)
  | record :: rest, endpoint, resultRec, log =>
    let (resp, endpoint, log) := p.sendPostRequest t log endpoint
      [("domain-name", zone), ("record-type", record.Typ), ("host", record.Name),
       ("record", record.Value), ("ttl", Itoa (ttlRounder record.TTL))]
    match Provider.receive readEnvelope resp with
    | .error err => (.error err, log)
    | .panic msg => (.panic msg, log)
    | .ok resultModel =>
      let record := { record with ID := Itoa resultModel.Data.Id }
      Provider.AppendRecords.loop p t zone rest endpoint (resultRec ++ [record]) log

/-- Go `(*Provider).AppendRecords`. -/
def Provider.AppendRecords (p : Provider) (t : Transport) (log : List Request) (zone : String)
    (records : List Record) : Outcome (List Record) × List Request :=
  let endpoint := baseUrl.JoinPath "add-record.json"
  Provider.AppendRecords.loop p t zone records endpoint [] log

/-- The inner `for` loop of `(*Provider).SetRecords`: is the ID on the server? -/
def found (recordsOnServ : List Record) (record : Record) : Bool :=
  recordsOnServ.any fun recordOnServ => recordOnServ.ID = record.ID

/-- The outer `for` loop of `(*Provider).SetRecords`: the records still to set,
`resultRec`, the log. -/
def Provider.SetRecords.loop (p : Provider) (t : Transport) (zone : String)
    (recordsOnServ : List Record) :
    List Record → List Record → List Request → Outcome (List Record) × List Request
  | [], resultRec, log => (.ok resultRec, log)
  | record :: rest, resultRec, log =>
    if found recordsOnServ record then
      let endpoint := baseUrl.JoinPath "mod-record.json"
      let (resp, _, log) := p.sendPostRequest t log endpoint
        [("domain-name", zone), ("record-id", record.ID), ("host", record.Name),
         ("record", record.Value), ("ttl", Itoa (ttlRounder record.TTL))]
      match Provider.receive readEnvelope resp with
      | .error err => (.error err, log)
      | .panic msg => (.panic msg, log)
      | .ok resultModel =>
        let record := { record with ID := Itoa resultModel.Data.Id }
        Provider.SetRecords.loop p t zone recordsOnServ rest (resultRec ++ [record]) log
    else
      match p.AppendRecords t log zone [record] with
      | (.error err, log) => (.error err, log)
      | (.panic msg, log) => (.panic msg, log)
      | (.ok [], log) => (.panic indexOutOfRange, log)
      | (.ok (added :: _), log) =>
        let record := { record with ID := added.ID }
        Provider.SetRecords.loop p t zone recordsOnServ rest (resultRec ++ [record]) log

/-- Go `(*Provider).SetRecords`. -/
def Provider.SetRecords (p : Provider) (t : Transport) (log : List Request) (zone : String)
    (records : List Record) : Outcome (List Record) × List Request :=
  match p.GetRecords t log zone with
  | (.error err, log) => (.error err, log)
  | (.panic msg, log) => (.panic msg, log)
  | (.ok recordsOnServ, log) => Provider.SetRecords.loop p t zone recordsOnServ records [] log

/-- The `for` loop of `(*Provider).DeleteRecords`; the loop variable is a copy, so
the assignment to `record.ID` is not seen in `records`, which is what is returned. -/
def Provider.DeleteRecords.loop (p : Provider) (t : Transport) (zone : String)
    (records : List Record) :
    List Record → URL → List Request → Outcome (List Record) × List Request
  | [], _, log => (.ok records, log)
  | record :: rest, endpoint, log =>
    let (resp, endpoint, log) := p.sendPostRequest t log endpoint
      [("domain-name", zone), ("record-id", record.ID)]
    match Provider.receive readEnvelope resp with
    | .error err => (.error err, log)
    | .panic msg => (.panic msg, log)
    | .ok _ => Provider.DeleteRecords.loop p t zone records rest endpoint log

/-- Go `(*Provider).DeleteRecords`. -/
def Provider.DeleteRecords (p : Provider) (t : Transport) (log : List Request) (zone : String)
    (records : List Record) : Outcome (List Record) × List Request :=
  let endpoint := baseUrl.JoinPath "delete-record.json"
  Provider.DeleteRecords.loop p t zone records records endpoint log

/-! ## client.go -/

/-- Go `(*Client).GetRecords`. -/
def Client.GetRecords (c : Client) (t : Transport) (log : List Request) (zone : String) :
    Outcome (List Record) × List Request :=
  let endpoint := c.baseUrl.JoinPath "records.json"
  let (resp, _, log) := c.sendGetRequest t log endpoint [("domain-name", zone)]
  (Client.receive readListing resp, log)

/-- The message of the error of `GetRecord` for an absent record. -/
def recordNotFound : String := "record not found"

/-- Go `(*Client).GetRecord`: the first listed record with the ID. -/
def Client.GetRecord (c : Client) (t : Transport) (log : List Request) (zone recordId : String) :
    Outcome Record × List Request :=
  match c.GetRecords t log zone with
  | (.error err, log) => (.error err, log)
  | (.panic msg, log) => (.panic msg, log)
  | (.ok rs, log) =>
    match rs.find? (fun v => v.ID = recordId) with
    | some v => (.ok v, log)
    | none => (.error recordNotFound, log)

/-- Go `(*Client).AddRecord`. -/
def Client.AddRecord (c : Client) (t : Transport) (log : List Request)
    (zone recordType host record : String) (ttl : Duration) : Outcome Record × List Request :=
  let endpoint := c.baseUrl.JoinPath "add-record.json"
  let (resp, _, log) := c.sendPostRequest t log endpoint
    [("domain-name", zone), ("record-type", recordType), ("host", host),
     ("record", record), ("ttl", Itoa (ttlRounder ttl))]
  match Client.receive readEnvelope resp with
  | .error err => (.error err, log)
  | .panic msg => (.panic msg, log)
  | .ok resultModel =>
    (.ok { ID := Itoa resultModel.Data.Id, Typ := recordType, Name := host,
           TTL := parseDuration (Itoa (ttlRounder ttl) ++ "s"), Value := record }, log)

/-- Go `(*Client).UpdateRecord`. -/
def Client.UpdateRecord (c : Client) (t : Transport) (log : List Request)
    (zone recordId host record : String) (ttl : Duration) : Outcome Record × List Request :=
  let endpoint := c.baseUrl.JoinPath "mod-record.json"
  let (resp, _, log) := c.sendPostRequest t log endpoint
    [("domain-name", zone), ("record-id", recordId), ("host", host),
     ("record", record), ("ttl", Itoa (ttlRounder ttl))]
  match Client.receive readEnvelope resp with
  | .error err => (.error err, log)
  | .panic msg => (.panic msg, log)
  | .ok _ =>
    match c.GetRecord t log zone recordId with
    | (.error err, log) => (.error err, log)
    | (.panic msg, log) => (.panic msg, log)
    | (.ok getRecord, log) =>
      (.ok { ID := recordId, Typ := getRecord.Typ, Name := host,
             TTL := parseDuration (Itoa (ttlRounder ttl) ++ "s"), Value := record }, log)

/-- Go `(*Client).DeleteRecord`; `ok none` is the Go result `(nil, nil)`. -/
def Client.DeleteRecord (c : Client) (t : Transport) (log : List Request)
    (zone recordId : String) : Outcome (Option Record) × List Request :=
  match c.GetRecord t log zone recordId with
  | (.error err, log) =>
    if err = recordNotFound then (.ok none, log) else (.error err, log)
  | (.panic msg, log) => (.panic msg, log)
  | (.ok rInfo, log) =>
    let endpoint := c.baseUrl.JoinPath "delete-record.json"
    let (resp, _, log) := c.sendPostRequest t log endpoint
      [("domain-name", zone), ("record-id", recordId)]
    match Client.receive readEnvelope resp with
    | .error err => (.error err, log)
    | .panic msg => (.panic msg, log)
    | .ok _ => (.ok (some rInfo), log)

/-! ## Concrete answers used in the examples -/

/-- Answer with status 200 and a JSON object of wire records. -/
def listingAnswer (raw : String) (apiResult : List ApiDnsRecord) : SendResult :=
  .answered { StatusCode := 200,
              Body := { readErr := none, raw := raw, envelope := .invalid,
                        listing := .value apiResult } }

/-- Answer with status 200 and a response envelope (which is not a map of records). -/
def envelopeAnswer (raw : String) (e : ApiResponse) : SendResult :=
  .answered { StatusCode := 200,
              Body := { readErr := none, raw := raw, envelope := .value e,
                        listing := .invalid } }

/-- Answer with status 200 and a body that is not JSON. -/
def textAnswer (raw : String) : SendResult :=
  .answered { StatusCode := 200,
              Body := { readErr := none, raw := raw, envelope := .invalid,
                        listing := .invalid } }

/-- The envelope of a successful mutation with the given record id. -/
def successEnvelope (id : Int) : ApiResponse :=
  { Status := "Success", StatusDescription := "", Data := { Id := id } }

/-- A remote side that answers every GET with the given wire records and accepts every
other request, answering with record id `id`. -/
def acceptingTransport (apiResult : List ApiDnsRecord) (id : Int) : Transport :=
  fun log =>
    match log.getLast? with
    | some req =>
      if req.Method = "GET" then listingAnswer "" apiResult
      else envelopeAnswer "" (successEnvelope id)
    | none => .failed "no request"

/-- The envelope the vendor sends when it refuses a create. -/
def alreadyExists : ApiResponse :=
  { Status := "Failed", StatusDescription := "Record already exists", Data := { Id := 0 } }

/-- A remote side that answers every GET with the given wire records, refuses every
create and accepts every other request, answering with record id `id`. -/
def refusingTransport (apiResult : List ApiDnsRecord) (id : Int) : Transport :=
  fun log =>
    match log.getLast? with
    | some req =>
      if req.Method = "GET" then listingAnswer "" apiResult
      else if req.URL = "https://api.cloudns.net/dns/add-record.json" then
        envelopeAnswer "" alreadyExists
      else envelopeAnswer "" (successEnvelope id)
    | none => .failed "no request"

/-- A remote side that cannot be reached: every send fails without a response. -/
def unreachableTransport : Transport := fun _ => .failed "context canceled"

/-- A remote side that answers every request with status 200 and the given text,
which is not JSON. -/
def textTransport (raw : String) : Transport := fun _ => textAnswer raw

/-- The provider used in the examples. -/
def exampleProvider : Provider := { AuthId := "42", SubAuthId := "", AuthPassword := "secret" }

/-- The existing record of the scenario of spec section 8, on the wire. -/
def wwwOnWire : ApiDnsRecord :=
  { Id := "1", Typ := "A", Host := "www", Record := "1.2.3.4", Failover := "0", Ttl := "3600",
    Status := 1 }

/-- The desired record of the scenario of spec section 8. -/
def wwwDesired : Record :=
  { ID := "1", Typ := "A", Name := "www", Value := "5.6.7.8", TTL := 1200 * second }

/-- A record that has not been created yet: no ID. -/
def mailDesired : Record :=
  { ID := "", Typ := "MX", Name := "mail", Value := "mx.example.com", TTL := 3600 * second }

/-- A desired record whose ID is not on the server. -/
def ftpDesired : Record :=
  { ID := "9", Typ := "A", Name := "ftp", Value := "9.9.9.9", TTL := 60 * second }

/-- A wire record without an `id` field: the decoded `Id` is the empty string. -/
def anonymousOnWire : ApiDnsRecord :=
  { Id := "", Typ := "A", Host := "www", Record := "1.2.3.4", Failover := "0", Ttl := "3600",
    Status := 1 }

/-- A desired list that mixes an update with two creates. -/
def threeDesired : List Record := [wwwDesired, mailDesired, ftpDesired]

/-- What `SetRecords` returns for `threeDesired` when the vendor answers every
mutation with record id 1. -/
def threeReturned : List Record :=
  [{ wwwDesired with ID := "1" }, { mailDesired with ID := "1" }, { ftpDesired with ID := "1" }]

/-- The client used in the examples. -/
def exampleClient : Client := UseClient "42" "" "secret"

/-! ## Vocabulary of the statements -/

/-- The request built by a send helper from the query already in `reqUrl`. -/
def request (method authId subAuthId authPassword : String) (reqUrl : URL)
    (payload : List (String × String)) : Request :=
  { Method := method, URL := reqUrl.Path,
    Query := fillPayload (fillAuth authId subAuthId authPassword reqUrl.RawQuery) payload }

/-- The listing request of `(*Provider).GetRecords`. -/
def Provider.listRequest (p : Provider) (zone : String) : Request :=
  request "GET" p.AuthId p.SubAuthId p.AuthPassword (baseUrl.JoinPath "records.json")
    [("domain-name", zone)]

/-- The update request of `(*Provider).SetRecords` for a record. -/
def Provider.modRequest (p : Provider) (zone : String) (record : Record) : Request :=
  request "POST" p.AuthId p.SubAuthId p.AuthPassword (baseUrl.JoinPath "mod-record.json")
    [("domain-name", zone), ("record-id", record.ID), ("host", record.Name),
     ("record", record.Value), ("ttl", Itoa (ttlRounder record.TTL))]

/-- The create request of `(*Provider).AppendRecords` for a single record. -/
def Provider.addRequest (p : Provider) (zone : String) (record : Record) : Request :=
  request "POST" p.AuthId p.SubAuthId p.AuthPassword (baseUrl.JoinPath "add-record.json")
    [("domain-name", zone), ("record-type", record.Typ), ("host", record.Name),
     ("record", record.Value), ("ttl", Itoa (ttlRounder record.TTL))]

/-- The one request `(*Provider).SetRecords` issues for a record: an update when the
ID is on the server, a create otherwise. -/
def Provider.setRequest (p : Provider) (zone : String) (recordsOnServ : List Record)
    (record : Record) : Request :=
  if found recordsOnServ record then p.modRequest zone record else p.addRequest zone record

/-- The listing request of `(*Client).GetRecords`. -/
def Client.listRequest (c : Client) (zone : String) : Request :=
  request "GET" c.authId c.subAuthId c.authPassword (c.baseUrl.JoinPath "records.json")
    [("domain-name", zone)]

/-- The update request of `(*Client).UpdateRecord`. -/
def Client.modRequest (c : Client) (zone recordId host record : String) (ttl : Duration) :
    Request :=
  request "POST" c.authId c.subAuthId c.authPassword (c.baseUrl.JoinPath "mod-record.json")
    [("domain-name", zone), ("record-id", recordId), ("host", host),
     ("record", record), ("ttl", Itoa (ttlRounder ttl))]

/-- A POST to `mod-record.json`. -/
def IsModRecord (req : Request) : Prop :=
  req.Method = "POST" ∧ req.URL = "https://api.cloudns.net/dns/mod-record.json"

/-- A POST to `add-record.json`. -/
def IsAddRecord (req : Request) : Prop :=
  req.Method = "POST" ∧ req.URL = "https://api.cloudns.net/dns/add-record.json"

instance (req : Request) : Decidable (IsModRecord req) := by
  unfold IsModRecord; infer_instance

instance (req : Request) : Decidable (IsAddRecord req) := by
  unfold IsAddRecord; infer_instance

/-- The answer is HTTP 200 with a readable body holding a well-formed envelope whose
status is "Success". -/
def Accepts (a : SendResult) : Prop :=
  ∃ resp e, a = .answered resp ∧ resp.StatusCode = 200 ∧ resp.Body.readErr = none ∧
    resp.Body.envelope = .value e ∧ e.Status = "Success"

/-- The answer is HTTP 200 with a readable body holding a well-formed envelope whose
status is not "Success" and whose description is `desc`. -/
def Rejects (a : SendResult) (desc : String) : Prop :=
  ∃ resp e, a = .answered resp ∧ resp.StatusCode = 200 ∧ resp.Body.readErr = none ∧
    resp.Body.envelope = .value e ∧ e.Status ≠ "Success" ∧ e.StatusDescription = desc

/-- The authentication parameters of a query: the configured password, and exactly one
of `sub-auth-id` (when a sub-account is configured) and `auth-id` (otherwise), with the
configured value. -/
def AuthOK (authId subAuthId authPassword : String) (q : Values) : Prop :=
  Values.Get q "auth-password" = some authPassword ∧
  (if subAuthId ≠ "" then
     Values.Get q "sub-auth-id" = some subAuthId ∧ Values.Get q "auth-id" = none
   else
     Values.Get q "auth-id" = some authId ∧ Values.Get q "sub-auth-id" = none)

/-- No key of the payload is one of the three authentication keys. -/
def PayloadKeysOK (payload : List (String × String)) : Prop :=
  ∀ kv ∈ payload, kv.1 ≠ "auth-id" ∧ kv.1 ≠ "sub-auth-id" ∧ kv.1 ≠ "auth-password"

/-- Every request of the log carries the authentication parameters. -/
def LogOK (authId subAuthId authPassword : String) (log : List Request) : Prop :=
  ∀ req ∈ log, AuthOK authId subAuthId authPassword req.Query

/-- The query a URL holds before a send: empty (a fresh endpoint) or left there by an
earlier send with the same credentials (a reused endpoint). -/
def QueryOK (authId subAuthId authPassword : String) (q : Values) : Prop :=
  q = [] ∨ AuthOK authId subAuthId authPassword q

/-! ## TTL quantization -/

theorem find_seconds (s : Int) (l : List Int) :
    l.find? (fun v => decide (s * second ≤ v * second)) = l.find? (fun v => decide (s ≤ v)) := by
  congr 1
  funext v
  unfold second
  apply decide_eq_decide.mpr
  constructor <;> intro h <;> omega

theorem find_first (s : Int) :
    ∀ (l : List Int), l.Pairwise (· ≤ ·) → ∀ v, l.find? (fun w => decide (s ≤ w)) = some v →
      v ∈ l ∧ s ≤ v ∧ ∀ w ∈ l, s ≤ w → v ≤ w
  | [], _, v, h => by simp at h
  | a :: l, hl, v, h => by
    rw [List.pairwise_cons] at hl
    by_cases hs : s ≤ a
    · have hv : a = v := by simpa [List.find?_cons, hs] using h
      subst hv
      refine ⟨List.mem_cons_self _ _, hs, ?_⟩
      intro w hw _
      rcases List.mem_cons.mp hw with rfl | hw
      · exact le_refl _
      · exact hl.1 w hw
    · have h2 : l.find? (fun w => decide (s ≤ w)) = some v := by
        simpa [List.find?_cons, hs] using h
      obtain ⟨hm, hsv, hmin⟩ := find_first s l hl.2 v h2
      refine ⟨List.mem_cons_of_mem _ hm, hsv, ?_⟩
      intro w hw hsw
      rcases List.mem_cons.mp hw with rfl | hw
      · exact absurd hsw hs
      · exact hmin w hw hsw

theorem ttlBuckets_sorted : ttlBuckets.Pairwise (· ≤ ·) := by decide

theorem ttlBuckets_le_max : ∀ v ∈ ttlBuckets, v ≤ 2592000 := by decide

theorem ttlRounder_spec (s : Int) :
    ttlRounder (s * second) ∈ ttlBuckets ∧
    (s ≤ 2592000 →
      s ≤ ttlRounder (s * second) ∧ ∀ v ∈ ttlBuckets, s ≤ v → ttlRounder (s * second) ≤ v) ∧
    (2592000 < s → ttlRounder (s * second) = 2592000) := by
  unfold ttlRounder
  rw [find_seconds]
  cases h : ttlBuckets.find? (fun v => decide (s ≤ v)) with
  | none =>
    refine ⟨by decide, ?_, fun _ => rfl⟩
    intro hs
    have := List.find?_eq_none.mp h 2592000 (by decide)
    simp at this
    omega
  | some v =>
    obtain ⟨hm, hsv, hmin⟩ := find_first s _ ttlBuckets_sorted v h
    refine ⟨hm, fun _ => ⟨hsv, hmin⟩, ?_⟩
    intro hs
    have := ttlBuckets_le_max v hm
    show v = 2592000
    omega

theorem ttlRounder_mem (ttl : Duration) : ttlRounder ttl ∈ ttlBuckets := by
  unfold ttlRounder
  cases h : ttlBuckets.find? (fun v => decide (ttl ≤ v * second)) with
  | none => decide
  | some v => exact List.mem_of_find?_eq_some h

theorem parseDuration_bucket : ∀ v ∈ ttlBuckets, parseDuration (Itoa v ++ "s") = v * second := by
  decide

theorem parseDuration_ttlRounder (ttl : Duration) :
    parseDuration (Itoa (ttlRounder ttl) ++ "s") = ttlRounder ttl * second :=
  parseDuration_bucket _ (ttlRounder_mem ttl)

/-- C3. The quantized TTL of a request of `s` whole seconds is an accepted value; it is
the smallest accepted value that is at least `s` when `s` is at most 2592000, and
2592000 when `s` exceeds it; an accepted value is returned unchanged; and the
quantization is monotone non-decreasing. -/
theorem ttlRounder_smallest_accepted (s : Int) :
    ttlRounder (s * second) ∈ ttlBuckets ∧
    (s ≤ 2592000 →
      s ≤ ttlRounder (s * second) ∧ ∀ v ∈ ttlBuckets, s ≤ v → ttlRounder (s * second) ≤ v) ∧
    (2592000 < s → ttlRounder (s * second) = 2592000) ∧
    (s ∈ ttlBuckets → ttlRounder (s * second) = s) ∧
    (∀ s2 : Int, s ≤ s2 → ttlRounder (s * second) ≤ ttlRounder (s2 * second)) := by
  obtain ⟨hm, hle, hgt⟩ := ttlRounder_spec s
  refine ⟨hm, hle, hgt, ?_, ?_⟩
  · intro hs
    obtain ⟨h1, h2⟩ := hle (ttlBuckets_le_max s hs)
    exact le_antisymm (h2 s hs (le_refl s)) h1
  · intro s2 h
    obtain ⟨hm2, hle2, hgt2⟩ := ttlRounder_spec s2
    by_cases h2 : s2 ≤ 2592000
    · obtain ⟨h3, _⟩ := hle2 h2
      exact (hle (le_trans h h2)).2 _ hm2 (le_trans h h3)
    · rw [hgt2 (lt_of_not_le h2)]
      exact ttlBuckets_le_max _ hm

/-! ## The reconciliation loop of `SetRecords` -/

theorem providerGetRecords_eq (p : Provider) (t : Transport) (log : List Request)
    (zone : String) :
    p.GetRecords t log zone =
      (Provider.receive readListing (t (log ++ [p.listRequest zone])),
        log ++ [p.listRequest zone]) := rfl

theorem providerReceive_of_accepts {a : SendResult} (h : Accepts a) :
    ∃ e, Provider.receive readEnvelope a = .ok e := by
  obtain ⟨resp, e, rfl, h200, hread, henv, hst⟩ := h
  exact ⟨e, by simp [Provider.receive, readEnvelope, h200, hread, henv, hst]⟩

theorem providerReceive_of_rejects {a : SendResult} {desc : String} (h : Rejects a desc) :
    Provider.receive readEnvelope a = .error desc := by
  obtain ⟨resp, e, rfl, h200, hread, henv, hst, hdesc⟩ := h
  simp [Provider.receive, readEnvelope, h200, hread, henv, hst, hdesc]

/-- One round of the loop of `SetRecords`: whichever branch is taken, one request is
sent, and on success the record goes to the result with the ID of the envelope. -/
theorem setLoop_cons (p : Provider) (t : Transport) (zone : String)
    (recordsOnServ : List Record) (record : Record) (rest resultRec : List Record)
    (log : List Request) :
    Provider.SetRecords.loop p t zone recordsOnServ (record :: rest) resultRec log =
      match Provider.receive readEnvelope (t (log ++ [p.setRequest zone recordsOnServ record])) with
      | .error err => (.error err, log ++ [p.setRequest zone recordsOnServ record])
      | .panic msg => (.panic msg, log ++ [p.setRequest zone recordsOnServ record])
      | .ok resultModel =>
        Provider.SetRecords.loop p t zone recordsOnServ rest
          (resultRec ++ [{ record with ID := Itoa resultModel.Data.Id }])
          (log ++ [p.setRequest zone recordsOnServ record]) := by
  rw [Provider.SetRecords.loop]
  cases h : found recordsOnServ record
  · simp only [Bool.false_eq_true, if_false, Provider.setRequest, h, Provider.AppendRecords,
      Provider.AppendRecords.loop, Provider.sendPostRequest, send, Provider.addRequest, request]
    generalize Provider.receive readEnvelope _ = r
    cases r <;> rfl
  · simp only [if_true, Provider.setRequest, h, Provider.sendPostRequest, send,
      Provider.modRequest, request]

theorem providerSetRecords_eq (p : Provider) (t : Transport) (log : List Request)
    (zone : String) (records recordsOnServ : List Record)
    (hList : (p.GetRecords t log zone).1 = .ok recordsOnServ) :
    p.SetRecords t log zone records =
      Provider.SetRecords.loop p t zone recordsOnServ records [] (log ++ [p.listRequest zone]) := by
  rw [providerGetRecords_eq] at hList
  simp only at hList
  simp only [Provider.SetRecords, providerGetRecords_eq, hList]

/-- When every request is accepted the loop sends exactly the request of each record,
in order. -/
theorem setLoop_log (p : Provider) (t : Transport) (zone : String)
    (recordsOnServ : List Record)
    (hPost : ∀ (h : List Request) (req : Request), req.Method = "POST" → Accepts (t (h ++ [req]))) :
    ∀ (records resultRec : List Record) (log : List Request),
      (Provider.SetRecords.loop p t zone recordsOnServ records resultRec log).2 =
        log ++ records.map (p.setRequest zone recordsOnServ)
  | [], _, _ => by simp [Provider.SetRecords.loop]
  | record :: rest, resultRec, log => by
    have hm : (p.setRequest zone recordsOnServ record).Method = "POST" := by
      unfold Provider.setRequest
      split <;> rfl
    obtain ⟨e, he⟩ := providerReceive_of_accepts (hPost log _ hm)
    rw [setLoop_cons, he]
    simp only
    rw [setLoop_log p t zone recordsOnServ hPost rest]
    simp

/-- The loop stops at the first rejected request. -/
theorem setLoop_abort (p : Provider) (t : Transport) (zone : String)
    (recordsOnServ : List Record) (desc : String) :
    ∀ (records resultRec : List Record) (log : List Request) (k : Nat),
      k < records.length →
      (∀ i < k, Accepts
        (t (log ++ (records.take (i + 1)).map (p.setRequest zone recordsOnServ)))) →
      Rejects (t (log ++ (records.take (k + 1)).map (p.setRequest zone recordsOnServ))) desc →
      Provider.SetRecords.loop p t zone recordsOnServ records resultRec log =
        (.error desc, log ++ (records.take (k + 1)).map (p.setRequest zone recordsOnServ))
  | [], _, _, k, hk, _, _ => by simp at hk
  | record :: rest, resultRec, log, 0, _, _, hAt => by
    rw [setLoop_cons]
    simp only [List.take_succ_cons, List.take_zero, List.map_cons, List.map_nil] at hAt ⊢
    rw [providerReceive_of_rejects hAt]
  | record :: rest, resultRec, log, k + 1, hk, hBefore, hAt => by
    rw [setLoop_cons]
    have h0 := hBefore 0 (Nat.succ_pos k)
    simp only [List.take_succ_cons, List.take_zero, List.map_cons, List.map_nil] at h0
    obtain ⟨e, he⟩ := providerReceive_of_accepts h0
    rw [he]
    simp only
    rw [setLoop_abort p t zone recordsOnServ desc rest _ _ k
      (by simpa using hk)
      (by
        intro i hi
        have := hBefore (i + 1) (by omega)
        simpa using this)
      (by simpa using hAt)]
    simp

/-- The records of a successful run of the loop are the input records, in order, with
nothing but the ID changed. -/
theorem setLoop_result (p : Provider) (t : Transport) (zone : String)
    (recordsOnServ : List Record) :
    ∀ (records resultRec : List Record) (log : List Request) (result : List Record)
      (log2 : List Request),
      Provider.SetRecords.loop p t zone recordsOnServ records resultRec log = (.ok result, log2) →
      ∃ added, result = resultRec ++ added ∧
        List.Forall₂ (fun (r d : Record) =>
          r.Typ = d.Typ ∧ r.Name = d.Name ∧ r.Value = d.Value ∧ r.TTL = d.TTL) added records
  | [], resultRec, log, result, log2, h => by
    simp only [Provider.SetRecords.loop, Prod.mk.injEq, Outcome.ok.injEq] at h
    exact ⟨[], by simp [h.1], List.Forall₂.nil⟩
  | record :: rest, resultRec, log, result, log2, h => by
    rw [setLoop_cons] at h
    cases he : Provider.receive readEnvelope (t (log ++ [p.setRequest zone recordsOnServ record])) with
    | error err => rw [he] at h; simp at h
    | panic msg => rw [he] at h; simp at h
    | ok e =>
      rw [he] at h
      obtain ⟨added, hres, hall⟩ :=
        setLoop_result p t zone recordsOnServ rest _ _ result log2 h
      refine ⟨{ record with ID := Itoa e.Data.Id } :: added, by simp [hres], ?_⟩
      exact List.Forall₂.cons ⟨rfl, rfl, rfl, rfl⟩ hall

/-! ## Claims about `SetRecords` -/

theorem accepts_envelopeAnswer (raw : String) (e : ApiResponse) (h : e.Status = "Success") :
    Accepts (envelopeAnswer raw e) :=
  ⟨_, e, rfl, rfl, rfl, rfl, h⟩

theorem rejects_envelopeAnswer (raw : String) (e : ApiResponse) (h : e.Status ≠ "Success") :
    Rejects (envelopeAnswer raw e) e.StatusDescription :=
  ⟨_, e, rfl, rfl, rfl, rfl, h, rfl⟩

theorem modRequest_kind (p : Provider) (zone : String) (record : Record) :
    IsModRecord (p.modRequest zone record) ∧ ¬ IsAddRecord (p.modRequest zone record) := by
  refine ⟨⟨rfl, rfl⟩, fun h => ?_⟩
  have h2 : "https://api.cloudns.net/dns/mod-record.json" =
      "https://api.cloudns.net/dns/add-record.json" := h.2
  exact absurd h2 (by decide)

theorem addRequest_kind (p : Provider) (zone : String) (record : Record) :
    IsAddRecord (p.addRequest zone record) ∧ ¬ IsModRecord (p.addRequest zone record) := by
  refine ⟨⟨rfl, rfl⟩, fun h => ?_⟩
  have h2 : "https://api.cloudns.net/dns/add-record.json" =
      "https://api.cloudns.net/dns/mod-record.json" := h.2
  exact absurd h2 (by decide)

theorem acceptingTransport_accepts (apiResult : List ApiDnsRecord) (id : Int)
    (h : List Request) (req : Request) (hm : req.Method = "POST") :
    Accepts (acceptingTransport apiResult id (h ++ [req])) := by
  have ht : acceptingTransport apiResult id (h ++ [req]) =
      envelopeAnswer "" (successEnvelope id) := by
    simp [acceptingTransport, hm]
  rw [ht]
  exact accepts_envelopeAnswer "" _ rfl

/-- C1 (as stated, refuted). The listing holds a record whose ID is empty and the desired
record has an empty ID: the IDs are equal, the record is updated, and no create request
is sent, although the specification asks for a create for every record without an ID. -/
theorem SetRecords_empty_id_is_updated :
    mailDesired.ID = "" ∧
    (exampleProvider.SetRecords (acceptingTransport [anonymousOnWire] 7) [] "example.com"
        [mailDesired]).2 =
      [exampleProvider.listRequest "example.com",
       exampleProvider.modRequest "example.com" mailDesired] ∧
    IsModRecord (exampleProvider.modRequest "example.com" mailDesired) ∧
    ¬ IsAddRecord (exampleProvider.modRequest "example.com" mailDesired) := by
  decide

/-- C1 (amended). When the listing returns `recordsOnServ` and every mutating request is
accepted, `SetRecords` sends, after the listing request, exactly one request per desired
record, in order, built from that record: an update and not a create when some listed
record has the same ID,
a create and not an update when no listed record has the same ID (which is the case of
an empty ID unless a listed record has an empty ID too). -/
theorem SetRecords_one_request_per_record (p : Provider) (t : Transport) (log : List Request)
    (zone : String) (recordsOnServ records : List Record)
    (hList : (p.GetRecords t log zone).1 = .ok recordsOnServ)
    (hPost : ∀ (h : List Request) (req : Request), req.Method = "POST" → Accepts (t (h ++ [req]))) :
    ∃ reqs : List Request,
      (p.SetRecords t log zone records).2 = log ++ p.listRequest zone :: reqs ∧
      List.Forall₂ (fun (record : Record) (req : Request) =>
        req = p.setRequest zone recordsOnServ record ∧
        ((∃ r ∈ recordsOnServ, r.ID = record.ID) → IsModRecord req ∧ ¬ IsAddRecord req) ∧
        ((∀ r ∈ recordsOnServ, r.ID ≠ record.ID) → IsAddRecord req ∧ ¬ IsModRecord req))
        records reqs := by
  refine ⟨records.map (p.setRequest zone recordsOnServ), ?_, ?_⟩
  · rw [providerSetRecords_eq p t log zone records recordsOnServ hList,
      setLoop_log p t zone recordsOnServ hPost]
    simp
  · rw [List.forall₂_map_right_iff, List.forall₂_same]
    intro record _
    refine ⟨rfl, ?_, ?_⟩
    · rintro ⟨r, hr, hid⟩
      have hf : found recordsOnServ record = true := by
        simp only [found, List.any_eq_true, decide_eq_true_eq]
        exact ⟨r, hr, hid⟩
      simp only [Provider.setRequest, hf, if_true]
      exact modRequest_kind p zone record
    · intro hno
      have hf : found recordsOnServ record = false := by
        cases hc : found recordsOnServ record with
        | false => rfl
        | true =>
          simp only [found, List.any_eq_true, decide_eq_true_eq] at hc
          obtain ⟨r, hr, hid⟩ := hc
          exact absurd hid (hno r hr)
      simp only [Provider.setRequest, hf, Bool.false_eq_true, if_false]
      exact addRequest_kind p zone record

theorem SetRecords_one_request_per_record_witness :
    ∃ reqs : List Request,
      (exampleProvider.SetRecords (acceptingTransport [wwwOnWire] 1) [] "example.com"
          [wwwDesired, mailDesired, ftpDesired]).2 =
        [] ++ exampleProvider.listRequest "example.com" :: reqs ∧
      List.Forall₂ (fun (record : Record) (req : Request) =>
        req = exampleProvider.setRequest "example.com" [toRecord wwwOnWire] record ∧
        ((∃ r ∈ [toRecord wwwOnWire], r.ID = record.ID) → IsModRecord req ∧ ¬ IsAddRecord req) ∧
        ((∀ r ∈ [toRecord wwwOnWire], r.ID ≠ record.ID) → IsAddRecord req ∧ ¬ IsModRecord req))
        [wwwDesired, mailDesired, ftpDesired] reqs :=
  SetRecords_one_request_per_record exampleProvider (acceptingTransport [wwwOnWire] 1) []
    "example.com" [toRecord wwwOnWire] [wwwDesired, mailDesired, ftpDesired] (by decide)
    (acceptingTransport_accepts [wwwOnWire] 1)

/-- C2 (evaluation at the scenario of spec section 8). The update request carries
`ttl=1800`, the quantized value, but the record returned by `SetRecords` carries the
requested 1200 seconds: the loop changes nothing but the ID of the record it returns. -/
theorem SetRecords_returns_requested_ttl :
    exampleProvider.SetRecords (acceptingTransport [wwwOnWire] 1) [] "example.com" [wwwDesired] =
      (.ok [{ ID := "1", Typ := "A", Name := "www", Value := "5.6.7.8", TTL := 1200 * second }],
       [{ Method := "GET", URL := "https://api.cloudns.net/dns/records.json",
          Query := [("auth-id", "42"), ("auth-password", "secret"),
                    ("domain-name", "example.com")] },
        { Method := "POST", URL := "https://api.cloudns.net/dns/mod-record.json",
          Query := [("auth-id", "42"), ("auth-password", "secret"),
                    ("domain-name", "example.com"), ("record-id", "1"), ("host", "www"),
                    ("record", "5.6.7.8"), ("ttl", "1800")] }]) ∧
    ttlRounder (1200 * second) * second ≠ 1200 * second := by
  decide

/-- C4. When the listing returns `recordsOnServ`, the requests of the records before
position `k` are accepted and the request of the record at position `k` is answered with
HTTP 200 and a well-formed envelope whose status is not "Success", then `SetRecords`
returns no records and the error whose message is the description of that envelope, and
the requests issued are the listing and the one request of each record up to position
`k`: nothing for a later record, nothing that undoes an earlier one. -/
theorem SetRecords_aborts_on_rejection (p : Provider) (t : Transport) (log : List Request)
    (zone : String) (recordsOnServ records : List Record) (k : Nat) (desc : String)
    (hList : (p.GetRecords t log zone).1 = .ok recordsOnServ)
    (hk : k < records.length)
    (hBefore : ∀ i < k, Accepts (t (log ++ p.listRequest zone ::
      (records.take (i + 1)).map (p.setRequest zone recordsOnServ))))
    (hAt : Rejects (t (log ++ p.listRequest zone ::
      (records.take (k + 1)).map (p.setRequest zone recordsOnServ))) desc) :
    p.SetRecords t log zone records =
      (.error desc,
       log ++ p.listRequest zone :: (records.take (k + 1)).map (p.setRequest zone recordsOnServ)) := by
  rw [providerSetRecords_eq p t log zone records recordsOnServ hList,
    setLoop_abort p t zone recordsOnServ desc records [] _ k hk
      (by
        intro i hi
        have := hBefore i hi
        simpa using this)
      (by simpa using hAt)]
  simp

theorem SetRecords_aborts_on_rejection_witness :
    exampleProvider.SetRecords (refusingTransport [wwwOnWire] 1) [] "example.com"
        [wwwDesired, mailDesired, ftpDesired] =
      (.error "Record already exists",
       [] ++ exampleProvider.listRequest "example.com" ::
         ([wwwDesired, mailDesired, ftpDesired].take (1 + 1)).map
           (exampleProvider.setRequest "example.com" [toRecord wwwOnWire])) :=
  SetRecords_aborts_on_rejection exampleProvider (refusingTransport [wwwOnWire] 1) []
    "example.com" [toRecord wwwOnWire] [wwwDesired, mailDesired, ftpDesired] 1
    "Record already exists" (by decide) (by decide)
    (by
      intro i hi
      obtain rfl : i = 0 := by omega
      exact accepts_envelopeAnswer "" (successEnvelope 1) rfl)
    (rejects_envelopeAnswer "" alreadyExists (by decide))

/-- C5. A successful `SetRecords` returns as many records as it was given, and the
record at each position has the Type, Name and Value of the desired record at that
position. -/
theorem SetRecords_result_in_input_order (p : Provider) (t : Transport) (log : List Request)
    (zone : String) (records result : List Record) (log2 : List Request)
    (h : p.SetRecords t log zone records = (.ok result, log2)) :
    result.length = records.length ∧
    ∀ (i : Nat) (h1 : i < result.length) (h2 : i < records.length),
      result[i].Typ = records[i].Typ ∧ result[i].Name = records[i].Name ∧
      result[i].Value = records[i].Value := by
  cases hg : (p.GetRecords t log zone).1 with
  | error err =>
    simp only [Provider.SetRecords, providerGetRecords_eq] at h hg
    rw [hg] at h
    simp at h
  | panic msg =>
    simp only [Provider.SetRecords, providerGetRecords_eq] at h hg
    rw [hg] at h
    simp at h
  | ok recordsOnServ =>
    rw [providerSetRecords_eq p t log zone records recordsOnServ hg] at h
    obtain ⟨added, hres, hall⟩ :=
      setLoop_result p t zone recordsOnServ records [] _ result log2 h
    simp only [List.nil_append] at hres
    subst hres
    refine ⟨hall.length_eq, ?_⟩
    intro i h1 h2
    have := hall.get h1 h2
    simp only [List.get_eq_getElem] at this
    exact ⟨this.1, this.2.1, this.2.2.1⟩

theorem SetRecords_result_in_input_order_witness :
    threeReturned.length = threeDesired.length ∧
    ∀ (i : Nat) (_ : i < threeReturned.length) (h2 : i < threeDesired.length),
      threeReturned[i].Typ = threeDesired[i].Typ ∧ threeReturned[i].Name = threeDesired[i].Name ∧
      threeReturned[i].Value = threeDesired[i].Value :=
  SetRecords_result_in_input_order exampleProvider (acceptingTransport [wwwOnWire] 1) []
    "example.com" threeDesired threeReturned
    (exampleProvider.listRequest "example.com" ::
      threeDesired.map (exampleProvider.setRequest "example.com" [toRecord wwwOnWire]))
    (by decide)

/-! ## Claims about the client -/

theorem clientGetRecords_eq (c : Client) (t : Transport) (log : List Request) (zone : String) :
    c.GetRecords t log zone =
      (Client.receive readListing (t (log ++ [c.listRequest zone])),
        log ++ [c.listRequest zone]) := rfl

theorem clientReceive_of_accepts {a : SendResult} (h : Accepts a) :
    ∃ e, Client.receive readEnvelope a = .ok e := by
  obtain ⟨resp, e, rfl, h200, hread, henv, hst⟩ := h
  exact ⟨e, by simp [Client.receive, readEnvelope, h200, hread, henv, hst]⟩

theorem clientGetRecord_eq (c : Client) (t : Transport) (log : List Request)
    (zone recordId : String) (rs : List Record)
    (hList : (c.GetRecords t log zone).1 = .ok rs) :
    c.GetRecord t log zone recordId =
      (match rs.find? (fun v => decide (v.ID = recordId)) with
        | some v => .ok v
        | none => .error recordNotFound,
       log ++ [c.listRequest zone]) := by
  rw [clientGetRecords_eq] at hList
  simp only at hList
  simp only [Client.GetRecord, clientGetRecords_eq, hList]
  cases rs.find? (fun v => decide (v.ID = recordId)) <;> rfl

/-- C6. When the listing succeeds and holds no record with the ID, `DeleteRecord`
returns no record and no error, and the only request it has issued is the listing
request, a GET: no delete request is sent. -/
theorem DeleteRecord_absent_is_noop (c : Client) (t : Transport) (log : List Request)
    (zone recordId : String) (rs : List Record)
    (hList : (c.GetRecords t log zone).1 = .ok rs)
    (hAbsent : ∀ r ∈ rs, r.ID ≠ recordId) :
    c.DeleteRecord t log zone recordId = (.ok none, log ++ [c.listRequest zone]) ∧
    (c.listRequest zone).Method = "GET" := by
  have hnone : rs.find? (fun v => decide (v.ID = recordId)) = none := by
    rw [List.find?_eq_none]
    intro r hr
    simpa using hAbsent r hr
  refine ⟨?_, rfl⟩
  simp only [Client.DeleteRecord, clientGetRecord_eq c t log zone recordId rs hList, hnone,
    if_true]

theorem DeleteRecord_absent_is_noop_witness :
    exampleClient.DeleteRecord (acceptingTransport [wwwOnWire] 1) [] "example.com" "2" =
      (.ok none, [] ++ [exampleClient.listRequest "example.com"]) ∧
    (exampleClient.listRequest "example.com").Method = "GET" :=
  DeleteRecord_absent_is_noop exampleClient (acceptingTransport [wwwOnWire] 1) [] "example.com"
    "2" [toRecord wwwOnWire] (by decide) (by decide)

/-- C7 (evaluation). The send fails without a response.  Each of the four client
operations evaluates `resp.Body` for its deferred `Close` before it tests the error,
and ends in a nil-pointer panic instead of returning the error; `GetRecords` of the
provider, which tests the error first, returns it. -/
theorem Client_send_failure_panics :
    exampleClient.GetRecords unreachableTransport [] "example.com" =
      (.panic nilDeref, [exampleClient.listRequest "example.com"]) ∧
    (exampleClient.AddRecord unreachableTransport [] "example.com" "A" "www" "1.2.3.4"
      (60 * second)).1 = .panic nilDeref ∧
    (exampleClient.UpdateRecord unreachableTransport [] "example.com" "1" "www" "1.2.3.4"
      (60 * second)).1 = .panic nilDeref ∧
    (exampleClient.DeleteRecord unreachableTransport [] "example.com" "1").1 = .panic nilDeref ∧
    (exampleProvider.GetRecords unreachableTransport [] "example.com").1 =
      .error "context canceled" := by
  decide

/-- C8. When the update request is accepted and the listing that follows succeeds:
if the listing holds a record with the ID, the result is the record with that ID, the
Type of the first listed record with that ID, the given host and value, and the
quantized TTL; if it holds none, the call fails with "record not found". -/
theorem UpdateRecord_postcondition (c : Client) (t : Transport) (log : List Request)
    (zone recordId host record : String) (ttl : Duration) (rs : List Record)
    (hMod : Accepts (t (log ++ [c.modRequest zone recordId host record ttl])))
    (hList : (c.GetRecords t (log ++ [c.modRequest zone recordId host record ttl]) zone).1 =
      .ok rs) :
    ((∃ r ∈ rs, r.ID = recordId) →
      ∃ first, rs.find? (fun r => decide (r.ID = recordId)) = some first ∧
        (c.UpdateRecord t log zone recordId host record ttl).1 =
          .ok { ID := recordId, Typ := first.Typ, Name := host, Value := record,
                TTL := ttlRounder ttl * second }) ∧
    ((∀ r ∈ rs, r.ID ≠ recordId) →
      (c.UpdateRecord t log zone recordId host record ttl).1 = .error "record not found") := by
  obtain ⟨e, he⟩ := clientReceive_of_accepts hMod
  have hrun : c.UpdateRecord t log zone recordId host record ttl =
      match c.GetRecord t (log ++ [c.modRequest zone recordId host record ttl]) zone recordId with
      | (.error err, log) => (.error err, log)
      | (.panic msg, log) => (.panic msg, log)
      | (.ok getRecord, log) =>
        (.ok { ID := recordId, Typ := getRecord.Typ, Name := host,
               TTL := parseDuration (Itoa (ttlRounder ttl) ++ "s"), Value := record }, log) := by
    simp only [Client.UpdateRecord, Client.sendPostRequest, send, Client.modRequest, request]
      at he ⊢
    rw [he]
  rw [hrun, clientGetRecord_eq c t _ zone recordId rs hList]
  constructor
  · rintro ⟨r, hr, hid⟩
    cases hf : rs.find? (fun r => decide (r.ID = recordId)) with
    | none =>
      rw [List.find?_eq_none] at hf
      exact absurd hid (by simpa using hf r hr)
    | some first =>
      exact ⟨first, rfl, by simp only [parseDuration_ttlRounder]⟩
  · intro hno
    have hnone : rs.find? (fun v => decide (v.ID = recordId)) = none := by
      rw [List.find?_eq_none]
      intro r hr
      simpa using hno r hr
    rw [hnone]
    rfl

theorem UpdateRecord_postcondition_witness :
    ((∃ r ∈ [toRecord wwwOnWire], r.ID = "1") →
      ∃ first, [toRecord wwwOnWire].find? (fun r => decide (r.ID = "1")) = some first ∧
        (exampleClient.UpdateRecord (acceptingTransport [wwwOnWire] 1) [] "example.com" "1"
            "www" "5.6.7.8" (1200 * second)).1 =
          .ok { ID := "1", Typ := first.Typ, Name := "www", Value := "5.6.7.8",
                TTL := ttlRounder (1200 * second) * second }) ∧
    ((∀ r ∈ [toRecord wwwOnWire], r.ID ≠ "1") →
      (exampleClient.UpdateRecord (acceptingTransport [wwwOnWire] 1) [] "example.com" "1"
          "www" "5.6.7.8" (1200 * second)).1 = .error "record not found") :=
  UpdateRecord_postcondition exampleClient (acceptingTransport [wwwOnWire] 1) [] "example.com"
    "1" "www" "5.6.7.8" (1200 * second) [toRecord wwwOnWire]
    (acceptingTransport_accepts [wwwOnWire] 1 [] _ rfl) (by decide)

/-- C10 (evaluation). The listing is answered with status 200 and the text
`record not found`, which is not JSON: `GetRecords` fails with that text as its message,
and `DeleteRecord`, which recognises an absent record by this very message, returns no
record and no error. -/
theorem DeleteRecord_swallows_listing_failure :
    (exampleClient.GetRecords (textTransport "record not found") [] "example.com").1 =
      .error "record not found" ∧
    exampleClient.DeleteRecord (textTransport "record not found") [] "example.com" "1" =
      (.ok none, [exampleClient.listRequest "example.com"]) := by
  decide

/-! ## Authentication parameters -/

theorem Get_Set_self (key value : String) :
    ∀ q : Values, Values.Get (Values.Set q key value) key = some value
  | [] => by simp [Values.Set, Values.Get]
  | (k, v) :: rest => by
    by_cases h : k = key
    · simp [Values.Set, Values.Get, h]
    · simp [Values.Set, Values.Get, h, Get_Set_self key value rest]

theorem Get_Set_other (key value other : String) (hne : key ≠ other) :
    ∀ q : Values, Values.Get (Values.Set q key value) other = Values.Get q other
  | [] => by simp [Values.Set, Values.Get, hne]
  | (k, v) :: rest => by
    by_cases h : k = key
    · subst h
      simp [Values.Set, Values.Get, hne]
    · by_cases h2 : k = other
      · subst h2
        simp [Values.Set, Values.Get, h]
      · simp [Values.Set, Values.Get, h, h2, Get_Set_other key value other hne rest]

theorem Get_fillPayload (other : String) :
    ∀ (payload : List (String × String)) (q : Values), (∀ kv ∈ payload, kv.1 ≠ other) →
      Values.Get (fillPayload q payload) other = Values.Get q other
  | [], q, _ => rfl
  | kv :: payload, q, h => by
    have h1 : kv.1 ≠ other := h kv (List.mem_cons_self _ _)
    have h2 : ∀ x ∈ payload, x.1 ≠ other := fun x hx => h x (List.mem_cons_of_mem _ hx)
    show Values.Get (fillPayload (Values.Set q kv.1 kv.2) payload) other = Values.Get q other
    rw [Get_fillPayload other payload _ h2, Get_Set_other _ _ _ h1]

theorem AuthOK_fillAuth (authId subAuthId authPassword : String) (q : Values)
    (hq : QueryOK authId subAuthId authPassword q) :
    AuthOK authId subAuthId authPassword (fillAuth authId subAuthId authPassword q) := by
  have hpw1 : ("sub-auth-id" : String) ≠ "auth-password" := by decide
  have hpw2 : ("auth-id" : String) ≠ "auth-password" := by decide
  have hpw3 : ("auth-password" : String) ≠ "sub-auth-id" := by decide
  have hpw4 : ("auth-password" : String) ≠ "auth-id" := by decide
  have hids : ("sub-auth-id" : String) ≠ "auth-id" := by decide
  have hids2 : ("auth-id" : String) ≠ "sub-auth-id" := by decide
  unfold AuthOK fillAuth
  by_cases hs : subAuthId ≠ ""
  · have hnone : Values.Get q "auth-id" = none := by
      rcases hq with rfl | hq
      · rfl
      · have := hq.2
        rw [if_pos hs] at this
        exact this.2
    simp only [if_pos hs]
    refine ⟨Get_Set_self _ _ _, ?_, ?_⟩
    · rw [Get_Set_other _ _ _ hpw3, Get_Set_self]
    · rw [Get_Set_other _ _ _ hpw4, Get_Set_other _ _ _ hids, hnone]
  · have hnone : Values.Get q "sub-auth-id" = none := by
      rcases hq with rfl | hq
      · rfl
      · have := hq.2
        rw [if_neg hs] at this
        exact this.2
    simp only [if_neg hs]
    refine ⟨Get_Set_self _ _ _, ?_, ?_⟩
    · rw [Get_Set_other _ _ _ hpw4, Get_Set_self]
    · rw [Get_Set_other _ _ _ hpw3, Get_Set_other _ _ _ hids2, hnone]

/-- The query of a built request carries the authentication parameters, whatever the
values of the payload, when the URL came fresh or from an earlier send. -/
theorem AuthOK_request (method authId subAuthId authPassword : String) (reqUrl : URL)
    (payload : List (String × String)) (hp : PayloadKeysOK payload)
    (hq : QueryOK authId subAuthId authPassword reqUrl.RawQuery) :
    AuthOK authId subAuthId authPassword
      (request method authId subAuthId authPassword reqUrl payload).Query := by
  have hbase := AuthOK_fillAuth authId subAuthId authPassword reqUrl.RawQuery hq
  unfold AuthOK at hbase ⊢
  simp only [request]
  rw [Get_fillPayload "auth-password" payload _ (fun kv h => (hp kv h).2.2),
    Get_fillPayload "sub-auth-id" payload _ (fun kv h => (hp kv h).2.1),
    Get_fillPayload "auth-id" payload _ (fun kv h => (hp kv h).1)]
  exact hbase

theorem LogOK_append (authId subAuthId authPassword : String) (log : List Request)
    (req : Request) (hlog : LogOK authId subAuthId authPassword log)
    (hreq : AuthOK authId subAuthId authPassword req.Query) :
    LogOK authId subAuthId authPassword (log ++ [req]) := by
  intro r hr
  rcases List.mem_append.mp hr with h | h
  · exact hlog r h
  · rw [List.mem_singleton.mp h]
    exact hreq

theorem send_log (method authId subAuthId authPassword : String) (t : Transport)
    (log : List Request) (reqUrl : URL) (payload : List (String × String)) :
    send method authId subAuthId authPassword t log reqUrl payload =
      (t (log ++ [request method authId subAuthId authPassword reqUrl payload]),
       { reqUrl with
          RawQuery := (request method authId subAuthId authPassword reqUrl payload).Query },
       log ++ [request method authId subAuthId authPassword reqUrl payload]) := rfl

theorem baseUrl_QueryOK (authId subAuthId authPassword elem : String) :
    QueryOK authId subAuthId authPassword (baseUrl.JoinPath elem).RawQuery := Or.inl rfl

theorem keys_list (zone : String) : PayloadKeysOK [("domain-name", zone)] := by
  intro kv hkv
  simp only [List.mem_singleton] at hkv
  subst hkv
  simp

theorem keys_add (zone type host record ttl : String) :
    PayloadKeysOK [("domain-name", zone), ("record-type", type), ("host", host),
      ("record", record), ("ttl", ttl)] := by
  intro kv hkv
  simp only [List.mem_cons, List.mem_singleton, List.not_mem_nil, or_false] at hkv
  rcases hkv with h | h | h | h | h <;> subst h <;> simp

theorem keys_mod (zone id host record ttl : String) :
    PayloadKeysOK [("domain-name", zone), ("record-id", id), ("host", host),
      ("record", record), ("ttl", ttl)] := by
  intro kv hkv
  simp only [List.mem_cons, List.mem_singleton, List.not_mem_nil, or_false] at hkv
  rcases hkv with h | h | h | h | h <;> subst h <;> simp

theorem keys_delete (zone id : String) :
    PayloadKeysOK [("domain-name", zone), ("record-id", id)] := by
  intro kv hkv
  simp only [List.mem_cons, List.mem_singleton, List.not_mem_nil, or_false] at hkv
  rcases hkv with h | h <;> subst h <;> simp

theorem providerGetRecords_logOK (p : Provider) (t : Transport) (log : List Request)
    (zone : String) (hlog : LogOK p.AuthId p.SubAuthId p.AuthPassword log) :
    LogOK p.AuthId p.SubAuthId p.AuthPassword (p.GetRecords t log zone).2 := by
  rw [providerGetRecords_eq]
  exact LogOK_append _ _ _ _ _ hlog
    (AuthOK_request _ _ _ _ _ _ (keys_list zone) (baseUrl_QueryOK _ _ _ _))

theorem appendLoop_logOK (p : Provider) (t : Transport) (zone : String) :
    ∀ (records : List Record) (endpoint : URL) (resultRec : List Record) (log : List Request),
      QueryOK p.AuthId p.SubAuthId p.AuthPassword endpoint.RawQuery →
      LogOK p.AuthId p.SubAuthId p.AuthPassword log →
      LogOK p.AuthId p.SubAuthId p.AuthPassword
        (Provider.AppendRecords.loop p t zone records endpoint resultRec log).2
  | [], _, _, _, _, hlog => hlog
  | record :: rest, endpoint, resultRec, log, hq, hlog => by
    have hreq := AuthOK_request "POST" p.AuthId p.SubAuthId p.AuthPassword endpoint _
      (keys_add zone record.Typ record.Name record.Value (Itoa (ttlRounder record.TTL))) hq
    have hlog2 := LogOK_append _ _ _ _ _ hlog hreq
    rw [Provider.AppendRecords.loop]
    simp only [Provider.sendPostRequest, send_log]
    split
    · exact hlog2
    · exact hlog2
    · exact appendLoop_logOK p t zone rest _ _ _ (Or.inr hreq) hlog2

theorem deleteLoop_logOK (p : Provider) (t : Transport) (zone : String)
    (records : List Record) :
    ∀ (todo : List Record) (endpoint : URL) (log : List Request),
      QueryOK p.AuthId p.SubAuthId p.AuthPassword endpoint.RawQuery →
      LogOK p.AuthId p.SubAuthId p.AuthPassword log →
      LogOK p.AuthId p.SubAuthId p.AuthPassword
        (Provider.DeleteRecords.loop p t zone records todo endpoint log).2
  | [], _, _, _, hlog => hlog
  | record :: rest, endpoint, log, hq, hlog => by
    have hreq := AuthOK_request "POST" p.AuthId p.SubAuthId p.AuthPassword endpoint _
      (keys_delete zone record.ID) hq
    have hlog2 := LogOK_append _ _ _ _ _ hlog hreq
    rw [Provider.DeleteRecords.loop]
    simp only [Provider.sendPostRequest, send_log]
    split
    · exact hlog2
    · exact hlog2
    · exact deleteLoop_logOK p t zone records rest _ _ (Or.inr hreq) hlog2

theorem setRequest_AuthOK (p : Provider) (zone : String) (recordsOnServ : List Record)
    (record : Record) :
    AuthOK p.AuthId p.SubAuthId p.AuthPassword (p.setRequest zone recordsOnServ record).Query := by
  unfold Provider.setRequest
  split
  · exact AuthOK_request _ _ _ _ _ _ (keys_mod _ _ _ _ _) (baseUrl_QueryOK _ _ _ _)
  · exact AuthOK_request _ _ _ _ _ _ (keys_add _ _ _ _ _) (baseUrl_QueryOK _ _ _ _)

theorem setLoop_logOK (p : Provider) (t : Transport) (zone : String)
    (recordsOnServ : List Record) :
    ∀ (records resultRec : List Record) (log : List Request),
      LogOK p.AuthId p.SubAuthId p.AuthPassword log →
      LogOK p.AuthId p.SubAuthId p.AuthPassword
        (Provider.SetRecords.loop p t zone recordsOnServ records resultRec log).2
  | [], _, _, hlog => hlog
  | record :: rest, resultRec, log, hlog => by
    have hlog2 := LogOK_append _ _ _ _ _ hlog (setRequest_AuthOK p zone recordsOnServ record)
    rw [setLoop_cons]
    split
    · exact hlog2
    · exact hlog2
    · exact setLoop_logOK p t zone recordsOnServ rest _ _ hlog2

theorem providerSetRecords_logOK (p : Provider) (t : Transport) (log : List Request)
    (zone : String) (records : List Record)
    (hlog : LogOK p.AuthId p.SubAuthId p.AuthPassword log) :
    LogOK p.AuthId p.SubAuthId p.AuthPassword (p.SetRecords t log zone records).2 := by
  have hget := providerGetRecords_logOK p t log zone hlog
  unfold Provider.SetRecords
  split
  · next h => rw [h] at hget; exact hget
  · next h => rw [h] at hget; exact hget
  · next h =>
    rw [h] at hget
    exact setLoop_logOK p t zone _ records [] _ hget

theorem clientGetRecords_logOK (c : Client) (t : Transport) (log : List Request)
    (zone : String) (hb : QueryOK c.authId c.subAuthId c.authPassword c.baseUrl.RawQuery)
    (hlog : LogOK c.authId c.subAuthId c.authPassword log) :
    LogOK c.authId c.subAuthId c.authPassword (c.GetRecords t log zone).2 := by
  rw [clientGetRecords_eq]
  exact LogOK_append _ _ _ _ _ hlog (AuthOK_request _ _ _ _ _ _ (keys_list zone) hb)

theorem clientGetRecord_logOK (c : Client) (t : Transport) (log : List Request)
    (zone recordId : String)
    (hb : QueryOK c.authId c.subAuthId c.authPassword c.baseUrl.RawQuery)
    (hlog : LogOK c.authId c.subAuthId c.authPassword log) :
    LogOK c.authId c.subAuthId c.authPassword (c.GetRecord t log zone recordId).2 := by
  have hget := clientGetRecords_logOK c t log zone hb hlog
  unfold Client.GetRecord
  split
  · next h => rw [h] at hget; exact hget
  · next h => rw [h] at hget; exact hget
  · next h =>
    rw [h] at hget
    split <;> exact hget

theorem clientAddRecord_logOK (c : Client) (t : Transport) (log : List Request)
    (zone recordType host record : String) (ttl : Duration)
    (hb : QueryOK c.authId c.subAuthId c.authPassword c.baseUrl.RawQuery)
    (hlog : LogOK c.authId c.subAuthId c.authPassword log) :
    LogOK c.authId c.subAuthId c.authPassword
      (c.AddRecord t log zone recordType host record ttl).2 := by
  have hreq := AuthOK_request "POST" c.authId c.subAuthId c.authPassword
    (c.baseUrl.JoinPath "add-record.json") _
    (keys_add zone recordType host record (Itoa (ttlRounder ttl))) hb
  have hlog2 := LogOK_append _ _ _ _ _ hlog hreq
  unfold Client.AddRecord
  simp only [Client.sendPostRequest, send_log]
  split <;> exact hlog2

theorem clientUpdateRecord_logOK (c : Client) (t : Transport) (log : List Request)
    (zone recordId host record : String) (ttl : Duration)
    (hb : QueryOK c.authId c.subAuthId c.authPassword c.baseUrl.RawQuery)
    (hlog : LogOK c.authId c.subAuthId c.authPassword log) :
    LogOK c.authId c.subAuthId c.authPassword
      (c.UpdateRecord t log zone recordId host record ttl).2 := by
  have hreq := AuthOK_request "POST" c.authId c.subAuthId c.authPassword
    (c.baseUrl.JoinPath "mod-record.json") _
    (keys_mod zone recordId host record (Itoa (ttlRounder ttl))) hb
  have hlog2 := LogOK_append _ _ _ _ _ hlog hreq
  have hget := clientGetRecord_logOK c t _ zone recordId hb hlog2
  unfold Client.UpdateRecord
  simp only [Client.sendPostRequest, send_log]
  split
  · exact hlog2
  · exact hlog2
  · split
    · next h => rw [h] at hget; exact hget
    · next h => rw [h] at hget; exact hget
    · next h => rw [h] at hget; exact hget

theorem clientDeleteRecord_logOK (c : Client) (t : Transport) (log : List Request)
    (zone recordId : String)
    (hb : QueryOK c.authId c.subAuthId c.authPassword c.baseUrl.RawQuery)
    (hlog : LogOK c.authId c.subAuthId c.authPassword log) :
    LogOK c.authId c.subAuthId c.authPassword (c.DeleteRecord t log zone recordId).2 := by
  have hget := clientGetRecord_logOK c t log zone recordId hb hlog
  unfold Client.DeleteRecord
  split
  · next h =>
    rw [h] at hget
    split <;> exact hget
  · next h => rw [h] at hget; exact hget
  · next h =>
    rw [h] at hget
    have hreq := AuthOK_request "POST" c.authId c.subAuthId c.authPassword
      (c.baseUrl.JoinPath "delete-record.json") _ (keys_delete zone recordId) hb
    have hlog2 := LogOK_append _ _ _ _ _ hget hreq
    simp only [Client.sendPostRequest, send_log]
    split <;> exact hlog2

/-- C9. Every request issued by an operation of the provider, or of a client made by
`UseClient`, has in its query `auth-password` with the configured password and exactly
one of `sub-auth-id` (with the sub-account id, when it is not empty) and `auth-id`
(with the account id, otherwise), whatever the zone and the record fields are; this
includes the later requests of the loops of `AppendRecords` and `DeleteRecords`, which
send through one reused endpoint URL. -/
theorem requests_carry_auth (p : Provider) (authId subAuthId authPassword : String)
    (t : Transport) (zone recordId recordType host record : String) (ttl : Duration)
    (records : List Record) :
    (∀ req ∈ (p.GetRecords t [] zone).2, AuthOK p.AuthId p.SubAuthId p.AuthPassword req.Query) ∧
    (∀ req ∈ (p.AppendRecords t [] zone records).2,
      AuthOK p.AuthId p.SubAuthId p.AuthPassword req.Query) ∧
    (∀ req ∈ (p.SetRecords t [] zone records).2,
      AuthOK p.AuthId p.SubAuthId p.AuthPassword req.Query) ∧
    (∀ req ∈ (p.DeleteRecords t [] zone records).2,
      AuthOK p.AuthId p.SubAuthId p.AuthPassword req.Query) ∧
    (∀ req ∈ ((UseClient authId subAuthId authPassword).GetRecords t [] zone).2,
      AuthOK authId subAuthId authPassword req.Query) ∧
    (∀ req ∈ ((UseClient authId subAuthId authPassword).GetRecord t [] zone recordId).2,
      AuthOK authId subAuthId authPassword req.Query) ∧
    (∀ req ∈ ((UseClient authId subAuthId authPassword).AddRecord t [] zone recordType host
        record ttl).2, AuthOK authId subAuthId authPassword req.Query) ∧
    (∀ req ∈ ((UseClient authId subAuthId authPassword).UpdateRecord t [] zone recordId host
        record ttl).2, AuthOK authId subAuthId authPassword req.Query) ∧
    (∀ req ∈ ((UseClient authId subAuthId authPassword).DeleteRecord t [] zone recordId).2,
      AuthOK authId subAuthId authPassword req.Query) := by
  have h0 : ∀ a s pw, LogOK a s pw [] := fun _ _ _ _ h => absurd h (List.not_mem_nil _)
  have hb : QueryOK authId subAuthId authPassword
      (UseClient authId subAuthId authPassword).baseUrl.RawQuery := Or.inl rfl
  exact ⟨providerGetRecords_logOK p t [] zone (h0 _ _ _),
    appendLoop_logOK p t zone records _ [] [] (baseUrl_QueryOK _ _ _ _) (h0 _ _ _),
    providerSetRecords_logOK p t [] zone records (h0 _ _ _),
    deleteLoop_logOK p t zone records records _ [] (baseUrl_QueryOK _ _ _ _)
      (h0 _ _ _),
    clientGetRecords_logOK _ t [] zone hb (h0 _ _ _),
    clientGetRecord_logOK _ t [] zone recordId hb (h0 _ _ _),
    clientAddRecord_logOK _ t [] zone recordType host record ttl hb (h0 _ _ _),
    clientUpdateRecord_logOK _ t [] zone recordId host record ttl hb (h0 _ _ _),
    clientDeleteRecord_logOK _ t [] zone recordId hb (h0 _ _ _)⟩

end Cloudns
